import Mathlib

/-!
Shallow embedding of the TraceCam overlay application (`src/App.tsx`,
second component iteration): the gesture controller that drags and
pinch-zooms the overlay image and the camera viewport, the local-storage
persistence of the two transforms, the startup restore, and the camera
acquisition fallback chain.  JavaScript numbers are modelled as rationals;
local storage holds the parsed (JSON) form of the stored strings.
-/

namespace TraceCam

/-- A 2D point.  The source reads `clientX` / `clientY` off pointer and
touch events and stores them as `{ x, y }` in `dragStartPos`; the embedding
uses one point type with fields `x` and `y` for both. -/
@[ext]
structure Point where
  x : ℚ
  y : ℚ
  deriving DecidableEq, Repr

/-- The transform state kept for the overlay image (`imagePosition`) and the
camera viewport (`cameraTransform`): `useState({ x: 0, y: 0, scale: 1 })`. -/
@[ext]
structure Transform where
  x : ℚ
  y : ℚ
  scale : ℚ
  deriving DecidableEq, Repr

/-- Parsed JSON values.  `localStorage` holds strings; every value this
component stores is `JSON.stringify` of a plain value, and the startup
restore immediately `JSON.parse`s what it reads, so the embedding lets the
store hold the parsed form directly. -/
inductive Json where
  | null
  | bool (b : Bool)
  | num (q : ℚ)
  | str (s : String)
  | arr (elems : List Json)
  | obj (fields : List (String × Json))

/-- The only way `localStorage.setItem` fails for small payloads is a
quota error; the embedding models a store whose writes are currently
rejected by the platform with the flag `quotaExceeded`. -/
inductive StorageError where
  | quotaExceeded
  deriving DecidableEq, Repr

/-- Device-local key-value storage (`localStorage`), plus the environment
fact of whether writes are currently failing with a quota error. -/
@[ext]
structure Store where
  entries : List (String × Json)
  quotaExceeded : Bool

/-- `localStorage.getItem`: the value stored under `k`, if any. -/
def Store.getItem (st : Store) (k : String) : Option Json :=
  (st.entries.find? (fun e => e.1 == k)).map (fun e => e.2)

/-- `localStorage.setItem`: throws when the platform rejects the write
(quota exceeded), otherwise replaces the value under `k`. -/
def Store.setItem (st : Store) (k : String) (v : Json) : Except StorageError Store :=
  if st.quotaExceeded then .error .quotaExceeded
  else .ok { st with entries := (k, v) :: st.entries.filter (fun e => !(e.1 == k)) }

/-- `localStorage.removeItem`: never throws. -/
def Store.removeItem (st : Store) (k : String) : Store :=
  { st with entries := st.entries.filter (fun e => !(e.1 == k)) }

def imageTransformKey : String := "tracecam_image_transform"

def cameraTransformKey : String := "tracecam_camera_transform"

/-- The component state relevant to the gesture controller and
persistence: the `useState` hooks plus the `useRef` tracking cells of the
source, and the local storage it reads and writes. -/
@[ext]
structure AppState where
  overlayImage : String
  overlayOpacity : ℚ
  showMoveMenu : Bool
  hideMode : Bool
  showOpacitySlider : Bool
  isPictureMoveActive : Bool
  isCameraMoveActive : Bool
  imagePosition : Transform
  cameraTransform : Transform
  dragStartPos : Point
  isDragging : Bool
  lastPinchDistance : ℚ
  isPinching : Bool
  store : Store

/-- The initial component state: `useState('')`, `useState(0.5)`, all flags
false, both transforms identity, `dragStartPos = {0,0}`,
`lastPinchDistance = 0`, with a given backing store. -/
def initialAppState (st : Store) : AppState :=
  { overlayImage := ""
    overlayOpacity := 0.5
    showMoveMenu := false
    hideMode := false
    showOpacitySlider := false
    isPictureMoveActive := false
    isCameraMoveActive := false
    imagePosition := { x := 0, y := 0, scale := 1 }
    cameraTransform := { x := 0, y := 0, scale := 1 }
    dragStartPos := { x := 0, y := 0 }
    isDragging := false
    lastPinchDistance := 0
    isPinching := false
    store := st }

/-!
The gesture handlers.  The source computes the pinch distance with
`getDistance = Math.sqrt(dx*dx + dy*dy)`; a square root of rationals is
irrational in general, so the embedding abstracts the distance function as
a parameter `dist` and proves every property for all distance functions —
in particular for the Euclidean one the source uses.
-/

/-- `handleTouchStart`: two contact points start a pinch (recording their
distance and disabling drag tracking); one contact point starts a drag
(recording the point as the drag origin).  The source tests
`e.touches.length === 2` and `=== 1`, here expressed by matching on the
list of touch points. -/
def handleTouchStart (dist : Point → Point → ℚ) (touches : List Point)
    (s : AppState) : AppState :=
  if !s.isPictureMoveActive && !s.isCameraMoveActive then s
  else
    match touches with
    | [t0, t1] =>
        { s with isPinching := true, isDragging := false,
                 lastPinchDistance := dist t0 t1 }
    | [t] =>
        { s with isPinching := false, isDragging := true, dragStartPos := t }
    | _ => s

/-- `handleTouchMove`: with two points mid-pinch, multiply the active
transform's scale by `currentDistance / lastPinchDistance` and clamp with
`Math.max(0.5, Math.min(3, _))`, then record the current distance; with one
point mid-drag, add the frame delta against `dragStartPos` to the active
transform and re-baseline `dragStartPos` to the current point. -/
def handleTouchMove (dist : Point → Point → ℚ) (touches : List Point)
    (s : AppState) : AppState :=
  if !s.isPictureMoveActive && !s.isCameraMoveActive then s
  else
    match touches, s.isPinching, s.isDragging with
    | [t0, t1], true, _ =>
        let currentDistance := dist t0 t1
        let factor := currentDistance / s.lastPinchDistance
        let s' :=
          if s.isPictureMoveActive then
            { s with imagePosition :=
                { s.imagePosition with
                    scale := max 0.5 (min 3 (s.imagePosition.scale * factor)) } }
          else if s.isCameraMoveActive then
            { s with cameraTransform :=
                { s.cameraTransform with
                    scale := max 0.5 (min 3 (s.cameraTransform.scale * factor)) } }
          else s
        { s' with lastPinchDistance := currentDistance }
    | [t], _, true =>
        let dx := t.x - s.dragStartPos.x
        let dy := t.y - s.dragStartPos.y
        let s' :=
          if s.isPictureMoveActive then
            { s with imagePosition :=
                { s.imagePosition with
                    x := s.imagePosition.x + dx, y := s.imagePosition.y + dy } }
          else if s.isCameraMoveActive then
            { s with cameraTransform :=
                { s.cameraTransform with
                    x := s.cameraTransform.x + dx, y := s.cameraTransform.y + dy } }
          else s
        { s' with dragStartPos := t }
    | _, _, _ => s

/-- Folding `handleTouchMove` over a sequence of touch-move frames. -/
def runTouchMoves (dist : Point → Point → ℚ) (evs : List (List Point))
    (s : AppState) : AppState :=
  List.foldl (fun s t => handleTouchMove dist t s) s evs

/-- `handlePointerDown`: start a drag, recording the pointer position as
the drag origin (pointer capture is a platform side effect with no state of
its own here). -/
def handlePointerDown (p : Point) (s : AppState) : AppState :=
  if !s.isPictureMoveActive && !s.isCameraMoveActive then s
  else { s with isDragging := true, dragStartPos := p }

/-- `handlePointerMove`: while dragging, add the frame delta against
`dragStartPos` to the active transform's position and re-baseline
`dragStartPos` to the current pointer position. -/
def handlePointerMove (p : Point) (s : AppState) : AppState :=
  if (!s.isPictureMoveActive && !s.isCameraMoveActive) || !s.isDragging then s
  else
    let dx := p.x - s.dragStartPos.x
    let dy := p.y - s.dragStartPos.y
    let s' :=
      if s.isPictureMoveActive then
        { s with imagePosition :=
            { s.imagePosition with
                x := s.imagePosition.x + dx, y := s.imagePosition.y + dy } }
      else if s.isCameraMoveActive then
        { s with cameraTransform :=
            { s.cameraTransform with
                x := s.cameraTransform.x + dx, y := s.cameraTransform.y + dy } }
      else s
    { s' with dragStartPos := p }

/-- `JSON.stringify` of a transform: an object with fields `x`, `y`,
`scale` in insertion order. -/
def encodeTransform (t : Transform) : Json :=
  .obj [("x", .num t.x), ("y", .num t.y), ("scale", .num t.scale)]

/-- `handlePointerUp`: stop dragging and persist the active transform
under its storage key.  The source wraps the `localStorage.setItem` call in
no `try`/`catch`, so a storage failure propagates out of the handler. -/
def handlePointerUp (s : AppState) : Except StorageError AppState :=
  if !s.isPictureMoveActive && !s.isCameraMoveActive then .ok s
  else
    let s := { s with isDragging := false }
    if s.isPictureMoveActive then
      match s.store.setItem imageTransformKey (encodeTransform s.imagePosition) with
      | .ok st => .ok { s with store := st }
      | .error e => .error e
    else if s.isCameraMoveActive then
      match s.store.setItem cameraTransformKey (encodeTransform s.cameraTransform) with
      | .ok st => .ok { s with store := st }
      | .error e => .error e
    else .ok s

/-- `handleTouchEnd`: when the last touch lifts, clear tracking and persist
the active transform (the bare `setItem` may throw); when the count drops
from two to one mid-pinch, transition to drag mode with the remaining point
as the new drag origin.  The source tests `e.touches.length === 0` and
`=== 1 && isPinching.current`, here expressed by matching on the list of
remaining touch points. -/
def handleTouchEnd (touches : List Point) (s : AppState) :
    Except StorageError AppState :=
  if !s.isPictureMoveActive && !s.isCameraMoveActive then .ok s
  else
    match touches, s.isPinching with
    | [], _ =>
        let s := { s with isDragging := false, isPinching := false }
        if s.isPictureMoveActive then
          match s.store.setItem imageTransformKey (encodeTransform s.imagePosition) with
          | .ok st => .ok { s with store := st }
          | .error e => .error e
        else if s.isCameraMoveActive then
          match s.store.setItem cameraTransformKey (encodeTransform s.cameraTransform) with
          | .ok st => .ok { s with store := st }
          | .error e => .error e
        else .ok s
    | [t], true =>
        .ok { s with isPinching := false, isDragging := true, dragStartPos := t }
    | _, _ => .ok s

/-- The JavaScript check `parsedTransform && typeof parsedTransform ===
'object'` on a `JSON.parse` result: objects and arrays have `typeof`
`'object'` and are truthy; `null` has `typeof` `'object'` but is falsy;
numbers, strings and booleans have a different `typeof`. -/
def Json.isTruthyObject : Json → Bool
  | .obj _ => true
  | .arr _ => true
  | _ => false

def Json.getField : Json → String → Option Json
  | .obj fields, name => (fields.find? (fun f => f.1 == name)).map (fun f => f.2)
  | _, _ => none

/-- Reading a numeric field of a parsed value installed as a transform.
The source installs the parsed object directly as the state
(`setImagePosition(parsedTransform)`) with no field validation; the
embedding reads the three fields the component ever uses into the
`Transform` record.  A field that is absent or non-numeric is JavaScript
`undefined` when read, which has no rational counterpart; it is mapped to 0
here and no theorem depends on that case. -/
def Json.numField (j : Json) (name : String) : ℚ :=
  match j.getField name with
  | some (.num q) => q
  | _ => 0

def jsonToTransform (j : Json) : Transform :=
  { x := j.numField "x", y := j.numField "y", scale := j.numField "scale" }

/-- The restore-on-mount effect: for each of the two transform keys, if a
value is stored, parse it and — if it is a truthy object — install it as
the corresponding transform.  A `JSON.parse` failure is caught and logged,
leaving the default (the embedding's store holds parsed values, so the
catch arm is the identity already taken when no entry exists). -/
def loadTransforms (s : AppState) : AppState :=
  let s1 :=
    match s.store.getItem imageTransformKey with
    | some j => if j.isTruthyObject then { s with imagePosition := jsonToTransform j } else s
    | none => s
  match s1.store.getItem cameraTransformKey with
  | some j => if j.isTruthyObject then { s1 with cameraTransform := jsonToTransform j } else s1
  | none => s1

/-- `handleClearImage`: clear the uploaded image, reset both transforms to
the identity, and remove both persisted entries. -/
def handleClearImage (s : AppState) : AppState :=
  { s with overlayImage := ""
           imagePosition := { x := 0, y := 0, scale := 1 }
           cameraTransform := { x := 0, y := 0, scale := 1 }
           store := (s.store.removeItem imageTransformKey).removeItem cameraTransformKey }

/-- `handlePictureMoveToggle`: `setIsPictureMoveActive(prev => !prev)`,
and when the render-time value was inactive (i.e. we are activating),
deactivate camera move. -/
def handlePictureMoveToggle (s : AppState) : AppState :=
  let s' := { s with isPictureMoveActive := !s.isPictureMoveActive }
  if !s.isPictureMoveActive then { s' with isCameraMoveActive := false } else s'

/-- `handleCameraMoveToggle`: symmetric to `handlePictureMoveToggle`. -/
def handleCameraMoveToggle (s : AppState) : AppState :=
  let s' := { s with isCameraMoveActive := !s.isCameraMoveActive }
  if !s.isCameraMoveActive then { s' with isPictureMoveActive := false } else s'

/-- `handleMoveToggle`: flip the move menu; when closing it with picture
move active, deactivate picture move and persist the image transform; when
opening it, close the opacity slider.  Both `if`s read the render-time
(pre-flip) value of `showMoveMenu`. -/
def handleMoveToggle (s : AppState) : Except StorageError AppState :=
  let menuOld := s.showMoveMenu
  let s1 := { s with showMoveMenu := !menuOld }
  let afterSave : Except StorageError AppState :=
    if menuOld && s1.isPictureMoveActive then
      match s1.store.setItem imageTransformKey (encodeTransform s1.imagePosition) with
      | .ok st => .ok { s1 with isPictureMoveActive := false, store := st }
      | .error e => .error e
    else .ok s1
  match afterSave with
  | .ok s2 => .ok (if !menuOld then { s2 with showOpacitySlider := false } else s2)
  | .error e => .error e

/-- `handleHide`: lock in (deactivate and persist) whichever move mode is
active, compensate the camera transform by the 56px layout shift, and enter
hide mode with all menus closed. -/
def handleHide (s : AppState) : Except StorageError AppState :=
  let step1 : Except StorageError AppState :=
    if s.isPictureMoveActive then
      match s.store.setItem imageTransformKey (encodeTransform s.imagePosition) with
      | .ok st => .ok { s with isPictureMoveActive := false, store := st }
      | .error e => .error e
    else .ok s
  match step1 with
  | .error e => .error e
  | .ok s1 =>
    let step2 : Except StorageError AppState :=
      if s1.isCameraMoveActive then
        match s1.store.setItem cameraTransformKey (encodeTransform s1.cameraTransform) with
        | .ok st => .ok { s1 with isCameraMoveActive := false, store := st }
        | .error e => .error e
      else .ok s1
    match step2 with
    | .error e => .error e
    | .ok s2 =>
        .ok { s2 with cameraTransform := { s2.cameraTransform with y := s2.cameraTransform.y + 56 }
                      hideMode := true
                      showMoveMenu := false
                      showOpacitySlider := false }

/-- The user operations that touch the two gesture-target flags. -/
inductive MoveOp where
  | pictureToggle
  | cameraToggle
  | moveToggle
  | hide
  deriving DecidableEq, Repr

def applyOp : MoveOp → AppState → Except StorageError AppState
  | .pictureToggle, s => .ok (handlePictureMoveToggle s)
  | .cameraToggle, s => .ok (handleCameraMoveToggle s)
  | .moveToggle, s => handleMoveToggle s
  | .hide, s => handleHide s

def runOps : List MoveOp → AppState → Except StorageError AppState
  | [], s => .ok s
  | op :: ops, s =>
      match applyOp op s with
      | .ok s' => runOps ops s'
      | .error e => .error e

/-- A gesture move event: a pointer-move or a touch-move frame. -/
inductive MoveEvt where
  | pointer (p : Point)
  | touchFrame (touches : List Point)

def applyMove (dist : Point → Point → ℚ) : MoveEvt → AppState → AppState
  | .pointer p, s => handlePointerMove p s
  | .touchFrame ts, s => handleTouchMove dist ts s

def runMoves (dist : Point → Point → ℚ) (evs : List MoveEvt)
    (s : AppState) : AppState :=
  List.foldl (fun s e => applyMove dist e s) s evs

/-- Folding `handlePointerMove` over a sequence of absolute pointer
positions. -/
def runPointerMoves (ps : List Point) (s : AppState) : AppState :=
  List.foldl (fun s p => handlePointerMove p s) s ps

/-- The absolute positions a drag visits when the per-frame deltas are
`ds`, starting one frame after origin `p`. -/
def dragPath : Point → List (ℚ × ℚ) → List Point
  | _, [] => []
  | p, d :: ds =>
      let q : Point := { x := p.x + d.1, y := p.y + d.2 }
      q :: dragPath q ds

def sumX (ds : List (ℚ × ℚ)) : ℚ := (ds.map Prod.fst).sum

def sumY (ds : List (ℚ × ℚ)) : ℚ := (ds.map Prod.snd).sum

/-- The three `getUserMedia` constraint tiers the camera-start effect
requests: `{ facingMode: { exact: "environment" } }`, then
`{ facingMode: "environment" }`, then `{ video: true }`. -/
inductive CamConstraint where
  | exactEnvironment
  | environment
  | anyCamera
  deriving DecidableEq, Repr

inductive CamError where
  | permissionDenied
  | notReadable
  | overconstrained
  deriving DecidableEq, Repr

/-- The `startCamera` fallback chain inside the camera effect: try the
strict rear-camera constraint; on rejection try the soft preference; on
rejection try any camera, whose rejection reaches the outer `catch` and is
surfaced as the error state.  `env` is the platform's response to each
constraint (streams are identified by number); the second component of the
result records which constraints were requested, in order. -/
def startCamera (env : CamConstraint → Except CamError Nat) :
    Except CamError Nat × List CamConstraint :=
  match env .exactEnvironment with
  | .ok st => (.ok st, [.exactEnvironment])
  | .error _ =>
      match env .environment with
      | .ok st => (.ok st, [.exactEnvironment, .environment])
      | .error _ =>
          (env .anyCamera, [.exactEnvironment, .environment, .anyCamera])

/-- At most one of the two gesture targets is active. -/
def TargetsExclusive (s : AppState) : Prop :=
  s.isPictureMoveActive = false ∨ s.isCameraMoveActive = false

/-! Concrete fixtures used by the witness and counterexample theorems. -/

def emptyStore : Store := { entries := [], quotaExceeded := false }

def c3Env : CamConstraint → Except CamError Nat
  | .exactEnvironment => .error .overconstrained
  | .environment => .ok 1
  | .anyCamera => .ok 2

def c4State : AppState :=
  { initialAppState emptyStore with isPictureMoveActive := true }

def c5State : AppState :=
  { initialAppState emptyStore with
      isPictureMoveActive := true, isPinching := true, lastPinchDistance := 10,
      imagePosition := { x := 4, y := 5, scale := 2 } }

def c7State : AppState :=
  { initialAppState emptyStore with
      isPictureMoveActive := true,
      imagePosition := { x := 12.5, y := -3, scale := 1.75 } }

def c8State : AppState :=
  { initialAppState { entries := [], quotaExceeded := true } with
      isPictureMoveActive := true }

def c9State : AppState :=
  { initialAppState emptyStore with
      isPictureMoveActive := true, isDragging := true,
      imagePosition := { x := 1, y := 1, scale := 1 } }

/-- A stored value that parses to a truthy object yet encodes a scale far
outside the clamp range. -/
def badStoredTransform : Json :=
  .obj [("x", .num 0), ("y", .num 0), ("scale", .num 100)]

def c10Store : Store :=
  { entries := [(imageTransformKey, badStoredTransform)], quotaExceeded := false }

def c1Dist : Point → Point → ℚ := fun _ _ => 2

def c1State : AppState :=
  { initialAppState emptyStore with
      isPictureMoveActive := true, isPinching := true, lastPinchDistance := 1 }

def c1Evs : List (List Point) :=
  [[{ x := 0, y := 0 }, { x := 2, y := 0 }]]

def c2State : AppState :=
  { initialAppState emptyStore with
      isPictureMoveActive := true, isDragging := true }

def c2Deltas : List (ℚ × ℚ) := [(1, 2), (3, -4)]

lemma clamp_mem (v : ℚ) : 0.5 ≤ max 0.5 (min 3 v) ∧ max 0.5 (min 3 v) ≤ 3 := by
  constructor
  · exact le_max_left _ _
  · exact max_le (by norm_num) (min_le_left _ _)

lemma handleTouchMove_imageScale (dist : Point → Point → ℚ)
    (touches : List Point) (s : AppState)
    (h : 0.5 ≤ s.imagePosition.scale ∧ s.imagePosition.scale ≤ 3) :
    0.5 ≤ (handleTouchMove dist touches s).imagePosition.scale ∧
      (handleTouchMove dist touches s).imagePosition.scale ≤ 3 := by
  unfold handleTouchMove
  split
  · exact h
  · match touches, s.isPinching, s.isDragging with
    | [t0, t1], true, _ =>
        simp only
        split
        · exact clamp_mem _
        · split
          · exact h
          · exact h
    | [t], b, true => cases b <;> simp only <;> split <;> simp_all
    | [], _, _ => exact h
    | [t], _, false => simp_all
    | t0 :: t1 :: t2 :: ts, _, _ => exact h
    | [t0, t1], false, _ => exact h

lemma handleTouchMove_cameraScale (dist : Point → Point → ℚ)
    (touches : List Point) (s : AppState)
    (h : 0.5 ≤ s.cameraTransform.scale ∧ s.cameraTransform.scale ≤ 3) :
    0.5 ≤ (handleTouchMove dist touches s).cameraTransform.scale ∧
      (handleTouchMove dist touches s).cameraTransform.scale ≤ 3 := by
  unfold handleTouchMove
  split
  · exact h
  · match touches, s.isPinching, s.isDragging with
    | [t0, t1], true, _ =>
        simp only
        split
        · exact h
        · split
          · exact clamp_mem _
          · exact h
    | [t], b, true => cases b <;> simp only <;> split <;> simp_all
    | [], _, _ => exact h
    | [t], _, false => simp_all
    | t0 :: t1 :: t2 :: ts, _, _ => exact h
    | [t0, t1], false, _ => exact h

lemma runTouchMoves_imageScale (dist : Point → Point → ℚ)
    (evs : List (List Point)) (s : AppState)
    (h : 0.5 ≤ s.imagePosition.scale ∧ s.imagePosition.scale ≤ 3) :
    0.5 ≤ (runTouchMoves dist evs s).imagePosition.scale ∧
      (runTouchMoves dist evs s).imagePosition.scale ≤ 3 := by
  induction evs generalizing s with
  | nil => exact h
  | cons t ts ih => exact ih _ (handleTouchMove_imageScale dist t s h)

lemma runTouchMoves_cameraScale (dist : Point → Point → ℚ)
    (evs : List (List Point)) (s : AppState)
    (h : 0.5 ≤ s.cameraTransform.scale ∧ s.cameraTransform.scale ≤ 3) :
    0.5 ≤ (runTouchMoves dist evs s).cameraTransform.scale ∧
      (runTouchMoves dist evs s).cameraTransform.scale ≤ 3 := by
  induction evs generalizing s with
  | nil => exact h
  | cons t ts ih => exact ih _ (handleTouchMove_cameraScale dist t s h)

/-- C1: for any sequence of pinch gestures — each multiplying the active
transform's scale by the ratio `currentDistance / lastPinchDistance` and
then clamping with `Math.max(0.5, Math.min(3, _))` — applied starting from
scale 1.0, the resulting scale is always within `[0.5, 3.0]`, no matter how
extreme the distance ratios are (the theorem holds for every distance
function and every sequence of touch-move frames, for both the overlay
image and the camera viewport transform). -/
theorem scale_clamping (dist : Point → Point → ℚ) (evs : List (List Point))
    (s : AppState) (himg : s.imagePosition.scale = 1)
    (hcam : s.cameraTransform.scale = 1) :
    (0.5 ≤ (runTouchMoves dist evs s).imagePosition.scale ∧
      (runTouchMoves dist evs s).imagePosition.scale ≤ 3) ∧
    (0.5 ≤ (runTouchMoves dist evs s).cameraTransform.scale ∧
      (runTouchMoves dist evs s).cameraTransform.scale ≤ 3) := by
  refine ⟨runTouchMoves_imageScale dist evs s ?_, runTouchMoves_cameraScale dist evs s ?_⟩
  · rw [himg]; norm_num
  · rw [hcam]; norm_num

/-- Witness for C1 at a concrete pinch sequence doubling the distance. -/
theorem scale_clamping_witness :
    (0.5 ≤ (runTouchMoves c1Dist c1Evs c1State).imagePosition.scale ∧
      (runTouchMoves c1Dist c1Evs c1State).imagePosition.scale ≤ 3) ∧
    (0.5 ≤ (runTouchMoves c1Dist c1Evs c1State).cameraTransform.scale ∧
      (runTouchMoves c1Dist c1Evs c1State).cameraTransform.scale ≤ 3) :=
  scale_clamping c1Dist c1Evs c1State rfl rfl

lemma handlePointerMove_pic (q : Point) (s : AppState)
    (hp : s.isPictureMoveActive = true) (hd : s.isDragging = true) :
    handlePointerMove q s =
      { s with
          imagePosition := { s.imagePosition with
            x := s.imagePosition.x + (q.x - s.dragStartPos.x),
            y := s.imagePosition.y + (q.y - s.dragStartPos.y) },
          dragStartPos := q } := by
  simp [handlePointerMove, hp, hd]

lemma handlePointerMove_cam (q : Point) (s : AppState)
    (hp : s.isPictureMoveActive = false) (hc : s.isCameraMoveActive = true)
    (hd : s.isDragging = true) :
    handlePointerMove q s =
      { s with
          cameraTransform := { s.cameraTransform with
            x := s.cameraTransform.x + (q.x - s.dragStartPos.x),
            y := s.cameraTransform.y + (q.y - s.dragStartPos.y) },
          dragStartPos := q } := by
  simp [handlePointerMove, hp, hc, hd]

lemma handlePointerMove_flags (q : Point) (s : AppState) :
    (handlePointerMove q s).isPictureMoveActive = s.isPictureMoveActive ∧
    (handlePointerMove q s).isCameraMoveActive = s.isCameraMoveActive ∧
    (handlePointerMove q s).isDragging = s.isDragging := by
  cases hp : s.isPictureMoveActive <;> cases hc : s.isCameraMoveActive <;>
    cases hd : s.isDragging <;>
      simp [handlePointerMove, hp, hc, hd]

lemma handlePointerMove_dragStartPos (q : Point) (s : AppState)
    (hact : s.isPictureMoveActive = true ∨ s.isCameraMoveActive = true)
    (hd : s.isDragging = true) :
    (handlePointerMove q s).dragStartPos = q := by
  rcases hact with hp | hc
  · cases hc : s.isCameraMoveActive <;> simp [handlePointerMove, hp, hc, hd]
  · cases hp : s.isPictureMoveActive <;> simp [handlePointerMove, hp, hc, hd]

lemma runPointerMoves_pic (ds : List (ℚ × ℚ)) :
    ∀ (p : Point) (s : AppState), s.isPictureMoveActive = true →
      s.isDragging = true → s.dragStartPos = p →
      runPointerMoves (dragPath p ds) s =
        { s with
            imagePosition := { s.imagePosition with
              x := s.imagePosition.x + sumX ds,
              y := s.imagePosition.y + sumY ds },
            dragStartPos := { x := p.x + sumX ds, y := p.y + sumY ds } } := by
  induction ds with
  | nil =>
      intro p s hp hd hdp
      ext <;> simp [runPointerMoves, dragPath, sumX, sumY, hdp]
  | cons d ds ih =>
      intro p s hp hd hdp
      rw [show dragPath p (d :: ds)
            = ({ x := p.x + d.1, y := p.y + d.2 } : Point)
                :: dragPath { x := p.x + d.1, y := p.y + d.2 } ds from rfl]
      rw [show runPointerMoves
              (({ x := p.x + d.1, y := p.y + d.2 } : Point)
                :: dragPath { x := p.x + d.1, y := p.y + d.2 } ds) s
            = runPointerMoves (dragPath { x := p.x + d.1, y := p.y + d.2 } ds)
                (handlePointerMove { x := p.x + d.1, y := p.y + d.2 } s) from rfl]
      rw [ih { x := p.x + d.1, y := p.y + d.2 }
            (handlePointerMove { x := p.x + d.1, y := p.y + d.2 } s)
            (by rw [(handlePointerMove_flags _ s).1]; exact hp)
            (by rw [(handlePointerMove_flags _ s).2.2]; exact hd)
            (handlePointerMove_dragStartPos _ s (Or.inl hp) hd)]
      rw [handlePointerMove_pic _ s hp hd]
      ext <;> simp [sumX, sumY, hdp] <;> ring

lemma runPointerMoves_cam (ds : List (ℚ × ℚ)) :
    ∀ (p : Point) (s : AppState), s.isPictureMoveActive = false →
      s.isCameraMoveActive = true →
      s.isDragging = true → s.dragStartPos = p →
      runPointerMoves (dragPath p ds) s =
        { s with
            cameraTransform := { s.cameraTransform with
              x := s.cameraTransform.x + sumX ds,
              y := s.cameraTransform.y + sumY ds },
            dragStartPos := { x := p.x + sumX ds, y := p.y + sumY ds } } := by
  induction ds with
  | nil =>
      intro p s hp hc hd hdp
      ext <;> simp [runPointerMoves, dragPath, sumX, sumY, hdp]
  | cons d ds ih =>
      intro p s hp hc hd hdp
      rw [show dragPath p (d :: ds)
            = ({ x := p.x + d.1, y := p.y + d.2 } : Point)
                :: dragPath { x := p.x + d.1, y := p.y + d.2 } ds from rfl]
      rw [show runPointerMoves
              (({ x := p.x + d.1, y := p.y + d.2 } : Point)
                :: dragPath { x := p.x + d.1, y := p.y + d.2 } ds) s
            = runPointerMoves (dragPath { x := p.x + d.1, y := p.y + d.2 } ds)
                (handlePointerMove { x := p.x + d.1, y := p.y + d.2 } s) from rfl]
      rw [ih { x := p.x + d.1, y := p.y + d.2 }
            (handlePointerMove { x := p.x + d.1, y := p.y + d.2 } s)
            (by rw [(handlePointerMove_flags _ s).1]; exact hp)
            (by rw [(handlePointerMove_flags _ s).2.1]; exact hc)
            (by rw [(handlePointerMove_flags _ s).2.2]; exact hd)
            (handlePointerMove_dragStartPos _ s (Or.inr hc) hd)]
      rw [handlePointerMove_cam _ s hp hc hd]
      ext <;> simp [sumX, sumY, hdp] <;> ring

lemma handleTouchMove_singleton (dist : Point → Point → ℚ) (q : Point)
    (s : AppState) :
    handleTouchMove dist [q] s = handlePointerMove q s := by
  cases hp : s.isPictureMoveActive <;> cases hc : s.isCameraMoveActive <;>
    cases hpin : s.isPinching <;> cases hd : s.isDragging <;>
      simp [handleTouchMove, handlePointerMove, hp, hc, hpin, hd]

lemma runTouchMoves_singletons (dist : Point → Point → ℚ) (ps : List Point)
    (s : AppState) :
    runTouchMoves dist (ps.map (fun p => [p])) s = runPointerMoves ps s := by
  induction ps generalizing s with
  | nil => rfl
  | cons p ps ih =>
      rw [show (p :: ps).map (fun p => [p]) = [p] :: ps.map (fun p => [p]) from rfl]
      rw [show runTouchMoves dist ([p] :: ps.map (fun p => [p])) s
            = runTouchMoves dist (ps.map (fun p => [p]))
                (handleTouchMove dist [p] s) from rfl]
      rw [handleTouchMove_singleton, ih]
      rfl

/-- C2: for every transform starting at `(x0, y0)` and every finite
sequence of single-point drag move events with per-frame deltas `ds`,
processing them all (each handler adds the frame delta to the transform and
re-baselines `dragStartPos` to the current point) yields final position
exactly `(x0 + Σdx, y0 + Σdy)` — no double-counting, no drift; moreover the
touch-move handler processes the same single-point frames identically to
the pointer-move handler. -/
theorem drag_accumulation (s : AppState) (ds : List (ℚ × ℚ))
    (hdrag : s.isDragging = true) :
    (s.isPictureMoveActive = true →
      (runPointerMoves (dragPath s.dragStartPos ds) s).imagePosition.x
          = s.imagePosition.x + sumX ds ∧
      (runPointerMoves (dragPath s.dragStartPos ds) s).imagePosition.y
          = s.imagePosition.y + sumY ds) ∧
    (s.isPictureMoveActive = false → s.isCameraMoveActive = true →
      (runPointerMoves (dragPath s.dragStartPos ds) s).cameraTransform.x
          = s.cameraTransform.x + sumX ds ∧
      (runPointerMoves (dragPath s.dragStartPos ds) s).cameraTransform.y
          = s.cameraTransform.y + sumY ds) ∧
    (∀ dist, runTouchMoves dist
          ((dragPath s.dragStartPos ds).map (fun p => [p])) s
        = runPointerMoves (dragPath s.dragStartPos ds) s) := by
  refine ⟨fun hp => ?_, fun hp hc => ?_, fun dist => runTouchMoves_singletons dist _ s⟩
  · rw [runPointerMoves_pic ds s.dragStartPos s hp hdrag rfl]
    exact ⟨rfl, rfl⟩
  · rw [runPointerMoves_cam ds s.dragStartPos s hp hc hdrag rfl]
    exact ⟨rfl, rfl⟩

/-- Witness for C2 at a concrete two-event drag. -/
theorem drag_accumulation_witness :
    (runPointerMoves (dragPath c2State.dragStartPos c2Deltas) c2State).imagePosition.x
        = c2State.imagePosition.x + sumX c2Deltas ∧
    (runPointerMoves (dragPath c2State.dragStartPos c2Deltas) c2State).imagePosition.y
        = c2State.imagePosition.y + sumY c2Deltas :=
  (drag_accumulation c2State c2Deltas rfl).1 rfl

/-- C3: camera acquisition tries the three constraint tiers in order —
strict rear camera, soft preference, any camera — each later tier only
after the prior one rejects; the first success is returned (so a failure of
the first attempt followed by a success of the second returns the second's
stream and never requests the third), and an error is surfaced only when
all three attempts reject. -/
theorem camera_fallback_order (env : CamConstraint → Except CamError Nat) :
    (∀ st, env .exactEnvironment = .ok st →
      startCamera env = (.ok st, [.exactEnvironment])) ∧
    (∀ e st, env .exactEnvironment = .error e → env .environment = .ok st →
      startCamera env = (.ok st, [.exactEnvironment, .environment])) ∧
    (∀ e e', env .exactEnvironment = .error e → env .environment = .error e' →
      startCamera env = (env .anyCamera,
        [.exactEnvironment, .environment, .anyCamera])) ∧
    (∀ e, (startCamera env).1 = .error e →
      ∃ e1 e2, env .exactEnvironment = .error e1 ∧
        env .environment = .error e2 ∧ env .anyCamera = .error e) := by
  refine ⟨?_, ?_, ?_, ?_⟩
  · intro st h
    simp [startCamera, h]
  · intro e st h1 h2
    simp [startCamera, h1, h2]
  · intro e e' h1 h2
    simp [startCamera, h1, h2]
  · intro e h
    cases h1 : env .exactEnvironment with
    | ok st => simp [startCamera, h1] at h
    | error e1 =>
        cases h2 : env .environment with
        | ok st => simp [startCamera, h1, h2] at h
        | error e2 =>
            refine ⟨e1, e2, rfl, rfl, ?_⟩
            simpa [startCamera, h1, h2] using h

/-- Witness for C3: strict request rejected, soft request granted. -/
theorem camera_fallback_order_witness :
    startCamera c3Env = (.ok 1, [.exactEnvironment, .environment]) :=
  (camera_fallback_order c3Env).2.1 .overconstrained 1 rfl rfl

lemma handleMoveToggle_ok_flags (s s' : AppState)
    (h : handleMoveToggle s = .ok s') :
    (s'.isPictureMoveActive = s.isPictureMoveActive ∨
      s'.isPictureMoveActive = false) ∧
    s'.isCameraMoveActive = s.isCameraMoveActive := by
  cases hm : s.showMoveMenu <;> cases hp : s.isPictureMoveActive <;>
    cases hq : s.store.quotaExceeded <;>
      simp [handleMoveToggle, Store.setItem, hm, hp, hq] at h <;>
        subst h <;> simp [hp]

lemma handleHide_ok_flags (s s' : AppState) (h : handleHide s = .ok s') :
    s'.isPictureMoveActive = false ∧ s'.isCameraMoveActive = false := by
  cases hp : s.isPictureMoveActive <;> cases hc : s.isCameraMoveActive <;>
    cases hq : s.store.quotaExceeded <;>
      simp [handleHide, Store.setItem, hp, hc, hq] at h <;>
        subst h <;> simp [hp, hc]

lemma applyOp_preserves (op : MoveOp) (s s' : AppState)
    (hinv : TargetsExclusive s) (h : applyOp op s = .ok s') :
    TargetsExclusive s' := by
  cases op with
  | pictureToggle =>
      simp [applyOp] at h
      subst h
      cases hp : s.isPictureMoveActive <;>
        simp [TargetsExclusive, handlePictureMoveToggle, hp]
  | cameraToggle =>
      simp [applyOp] at h
      subst h
      cases hc : s.isCameraMoveActive <;>
        simp [TargetsExclusive, handleCameraMoveToggle, hc]
  | moveToggle =>
      have hf := handleMoveToggle_ok_flags s s' (by simpa [applyOp] using h)
      rcases hf with ⟨hpic | hpic, hcam⟩
      · rcases hinv with h1 | h1
        · exact Or.inl (hpic.trans h1)
        · exact Or.inr (hcam.trans h1)
      · exact Or.inl hpic
  | hide =>
      have hf := handleHide_ok_flags s s' (by simpa [applyOp] using h)
      exact Or.inl hf.1

lemma runOps_preserves (ops : List MoveOp) :
    ∀ s s', TargetsExclusive s → runOps ops s = .ok s' →
      TargetsExclusive s' := by
  induction ops with
  | nil =>
      intro s s' hinv h
      simp [runOps] at h
      subst h
      exact hinv
  | cons op ops ih =>
      intro s s' hinv h
      unfold runOps at h
      cases hap : applyOp op s with
      | ok s1 =>
          rw [hap] at h
          exact ih s1 s' (applyOp_preserves op s s1 hinv hap) h
      | error e =>
          rw [hap] at h
          cases h

/-- C4: at most one of the two gesture targets (picture move, camera move)
is ever active — from the initial state every sequence of toggle / hide /
move-menu operations preserves the exclusion invariant, and activating one
target while the other is active deactivates the other. -/
theorem gesture_target_mutual_exclusion :
    (∀ s op s', TargetsExclusive s → applyOp op s = .ok s' →
      TargetsExclusive s') ∧
    (∀ (st : Store) (ops : List MoveOp) (s' : AppState),
      runOps ops (initialAppState st) = .ok s' → TargetsExclusive s') ∧
    (∀ s : AppState, s.isPictureMoveActive = true →
      s.isCameraMoveActive = false →
      (handleCameraMoveToggle s).isCameraMoveActive = true ∧
      (handleCameraMoveToggle s).isPictureMoveActive = false) ∧
    (∀ s : AppState, s.isCameraMoveActive = true →
      s.isPictureMoveActive = false →
      (handlePictureMoveToggle s).isPictureMoveActive = true ∧
      (handlePictureMoveToggle s).isCameraMoveActive = false) := by
  refine ⟨fun s op s' => applyOp_preserves op s s',
    fun st ops s' h => runOps_preserves ops _ s' (Or.inl rfl) h, ?_, ?_⟩
  · intro s hp hc
    simp [handleCameraMoveToggle, hc, hp]
  · intro s hc hp
    simp [handlePictureMoveToggle, hp, hc]

/-- Witness for C4: toggling camera move while picture move is active. -/
theorem gesture_target_mutual_exclusion_witness :
    (handleCameraMoveToggle c4State).isCameraMoveActive = true ∧
    (handleCameraMoveToggle c4State).isPictureMoveActive = false :=
  gesture_target_mutual_exclusion.2.2.1 c4State rfl rfl

/-- C5: when a two-point pinch drops to exactly one contact point, the
controller transitions to drag mode with the remaining point's position as
the new drag origin: the transition frame changes neither transform (no
scale change, no position jump), and the next single-point move produces a
delta measured from the transition point. -/
theorem pinch_to_drag_transition (dist : Point → Point → ℚ) (s : AppState)
    (p q : Point)
    (hact : s.isPictureMoveActive = true ∨ s.isCameraMoveActive = true)
    (hpinch : s.isPinching = true) :
    ∃ s', handleTouchEnd [p] s = .ok s' ∧
      s'.imagePosition = s.imagePosition ∧
      s'.cameraTransform = s.cameraTransform ∧
      s'.isPinching = false ∧ s'.isDragging = true ∧ s'.dragStartPos = p ∧
      (s.isPictureMoveActive = true →
        (handleTouchMove dist [q] s').imagePosition.x
            = s.imagePosition.x + (q.x - p.x) ∧
        (handleTouchMove dist [q] s').imagePosition.y
            = s.imagePosition.y + (q.y - p.y)) ∧
      (s.isPictureMoveActive = false → s.isCameraMoveActive = true →
        (handleTouchMove dist [q] s').cameraTransform.x
            = s.cameraTransform.x + (q.x - p.x) ∧
        (handleTouchMove dist [q] s').cameraTransform.y
            = s.cameraTransform.y + (q.y - p.y)) := by
  refine ⟨{ s with isPinching := false, isDragging := true, dragStartPos := p },
    ?_, rfl, rfl, rfl, rfl, rfl, ?_, ?_⟩
  · rcases hact with hp | hc
    · cases hc : s.isCameraMoveActive <;> simp [handleTouchEnd, hp, hc, hpinch]
    · cases hp : s.isPictureMoveActive <;> simp [handleTouchEnd, hp, hc, hpinch]
  · intro hp
    rw [handleTouchMove_singleton]
    simp [handlePointerMove, hp]
  · intro hp hc
    rw [handleTouchMove_singleton]
    simp [handlePointerMove, hp, hc]

/-- Witness for C5 at a concrete mid-pinch state. -/
theorem pinch_to_drag_transition_witness :
    ∃ s', handleTouchEnd [{ x := 3, y := 4 }] c5State = .ok s' ∧
      s'.imagePosition = c5State.imagePosition ∧
      s'.cameraTransform = c5State.cameraTransform ∧
      s'.isPinching = false ∧ s'.isDragging = true ∧
      s'.dragStartPos = { x := 3, y := 4 } ∧
      (c5State.isPictureMoveActive = true →
        (handleTouchMove c1Dist [{ x := 8, y := 6 }] s').imagePosition.x
            = c5State.imagePosition.x + ((8 : ℚ) - 3) ∧
        (handleTouchMove c1Dist [{ x := 8, y := 6 }] s').imagePosition.y
            = c5State.imagePosition.y + ((6 : ℚ) - 4)) ∧
      (c5State.isPictureMoveActive = false → c5State.isCameraMoveActive = true →
        (handleTouchMove c1Dist [{ x := 8, y := 6 }] s').cameraTransform.x
            = c5State.cameraTransform.x + ((8 : ℚ) - 3) ∧
        (handleTouchMove c1Dist [{ x := 8, y := 6 }] s').cameraTransform.y
            = c5State.cameraTransform.y + ((6 : ℚ) - 4)) :=
  pinch_to_drag_transition c1Dist c5State { x := 3, y := 4 } { x := 8, y := 6 }
    (Or.inl rfl) rfl

lemma find?_filter_self (l : List (String × Json)) (k : String) :
    (l.filter (fun e => !(e.1 == k))).find? (fun e => e.1 == k) = none := by
  induction l with
  | nil => rfl
  | cons e l ih =>
      by_cases he : e.1 = k
      · simp [List.filter_cons, he, ih]
      · simp [List.filter_cons, he, List.find?_cons, ih]

lemma find?_filter_ne (l : List (String × Json)) (k k' : String)
    (hne : k ≠ k') :
    (l.filter (fun e => !(e.1 == k'))).find? (fun e => e.1 == k)
      = l.find? (fun e => e.1 == k) := by
  induction l with
  | nil => rfl
  | cons e l ih =>
      by_cases he : e.1 = k'
      · have hek : e.1 ≠ k := by rw [he]; exact Ne.symm hne
        simp [List.filter_cons, he, List.find?_cons, hek, Ne.symm hne, ih]
      · by_cases hk : e.1 = k
        · simp [List.filter_cons, he, hne, List.find?_cons, hk]
        · simp [List.filter_cons, he, List.find?_cons, hk, ih]

lemma getItem_removeItem_self (st : Store) (k : String) :
    (st.removeItem k).getItem k = none := by
  simp [Store.getItem, Store.removeItem, find?_filter_self]

lemma getItem_removeItem_ne (st : Store) (k k' : String) (h : k ≠ k') :
    (st.removeItem k').getItem k = st.getItem k := by
  simp [Store.getItem, Store.removeItem, find?_filter_ne _ _ _ h]

/-- C6: the clear-image action resets both transforms to the identity
`{0, 0, 1}`, clears the uploaded image, and removes both persisted
entries, whatever the prior state was. -/
theorem clear_image_reset (s : AppState) :
    (handleClearImage s).imagePosition = { x := 0, y := 0, scale := 1 } ∧
    (handleClearImage s).cameraTransform = { x := 0, y := 0, scale := 1 } ∧
    (handleClearImage s).overlayImage = "" ∧
    (handleClearImage s).store.getItem imageTransformKey = none ∧
    (handleClearImage s).store.getItem cameraTransformKey = none := by
  refine ⟨rfl, rfl, rfl, ?_, ?_⟩
  · rw [show (handleClearImage s).store
        = (s.store.removeItem imageTransformKey).removeItem cameraTransformKey
        from rfl]
    rw [getItem_removeItem_ne _ _ _ (by decide)]
    exact getItem_removeItem_self _ _
  · exact getItem_removeItem_self _ _

lemma getItem_setItem_self (st st' : Store) (k : String) (v : Json)
    (h : st.setItem k v = .ok st') : st'.getItem k = some v := by
  unfold Store.setItem at h
  cases hq : st.quotaExceeded <;> rw [hq] at h <;> simp at h
  subst h
  simp [Store.getItem, List.find?_cons]

lemma jsonToTransform_encodeTransform (t : Transform) :
    jsonToTransform (encodeTransform t) = t := rfl

lemma loadTransforms_imagePosition (s : AppState) :
    (loadTransforms s).imagePosition =
      (match s.store.getItem imageTransformKey with
        | some j => if j.isTruthyObject then jsonToTransform j else s.imagePosition
        | none => s.imagePosition) := by
  unfold loadTransforms
  cases h1 : s.store.getItem imageTransformKey with
  | none =>
      simp only
      cases h2 : s.store.getItem cameraTransformKey with
      | none => rfl
      | some j => cases ht : j.isTruthyObject <;> simp [ht]
  | some j =>
      cases ht : j.isTruthyObject <;> simp only [ht] <;>
        cases h2 : s.store.getItem cameraTransformKey <;>
          simp_all <;> (try split) <;> rfl

lemma loadTransforms_cameraTransform (s : AppState) :
    (loadTransforms s).cameraTransform =
      (match s.store.getItem cameraTransformKey with
        | some j => if j.isTruthyObject then jsonToTransform j else s.cameraTransform
        | none => s.cameraTransform) := by
  unfold loadTransforms
  cases h1 : s.store.getItem imageTransformKey with
  | none =>
      simp only
      cases h2 : s.store.getItem cameraTransformKey with
      | none => rfl
      | some j => cases ht : j.isTruthyObject <;> simp [ht]
  | some j =>
      cases ht : j.isTruthyObject <;> simp only [ht] <;>
        cases h2 : s.store.getItem cameraTransformKey <;>
          simp_all <;> (try split) <;> rfl

/-- C7: persisting a transform at interaction end (JSON-serialized under
its storage key) and loading that key in a fresh startup yields a transform
equal to the original — exactly, in the rational model, hence in particular
within floating-point tolerance. -/
theorem persistence_roundtrip (s : AppState)
    (hq : s.store.quotaExceeded = false) :
    (s.isPictureMoveActive = true →
      ∃ s', handleTouchEnd [] s = .ok s' ∧
        (loadTransforms (initialAppState s'.store)).imagePosition
          = s.imagePosition) ∧
    (s.isPictureMoveActive = false → s.isCameraMoveActive = true →
      ∃ s', handleTouchEnd [] s = .ok s' ∧
        (loadTransforms (initialAppState s'.store)).cameraTransform
          = s.cameraTransform) := by
  constructor
  · intro hp
    cases hset : s.store.setItem imageTransformKey (encodeTransform s.imagePosition) with
    | error e =>
        unfold Store.setItem at hset
        rw [hq] at hset
        simp at hset
    | ok st' =>
        refine ⟨{ s with isDragging := false, isPinching := false, store := st' },
          ?_, ?_⟩
        · cases hc : s.isCameraMoveActive <;>
            simp [handleTouchEnd, hp, hc, hset]
        · rw [loadTransforms_imagePosition]
          rw [show (initialAppState st').store = st' from rfl]
          rw [getItem_setItem_self _ _ _ _ hset]
          simp [show (encodeTransform s.imagePosition).isTruthyObject = true
              from rfl,
            jsonToTransform_encodeTransform]
  · intro hp hc
    cases hset : s.store.setItem cameraTransformKey (encodeTransform s.cameraTransform) with
    | error e =>
        unfold Store.setItem at hset
        rw [hq] at hset
        simp at hset
    | ok st' =>
        refine ⟨{ s with isDragging := false, isPinching := false, store := st' },
          ?_, ?_⟩
        · simp [handleTouchEnd, hp, hc, hset]
        · rw [loadTransforms_cameraTransform]
          rw [show (initialAppState st').store = st' from rfl]
          rw [getItem_setItem_self _ _ _ _ hset]
          simp [show (encodeTransform s.cameraTransform).isTruthyObject = true
              from rfl,
            jsonToTransform_encodeTransform]

/-- Witness for C7 at the transform `{x: 12.5, y: -3.0, scale: 1.75}`. -/
theorem persistence_roundtrip_witness :
    ∃ s', handleTouchEnd [] c7State = .ok s' ∧
      (loadTransforms (initialAppState s'.store)).imagePosition
        = c7State.imagePosition :=
  (persistence_roundtrip c7State rfl).1 rfl

/-- C8 counterexample: with picture move active and the platform rejecting
writes (quota exceeded), lifting the last touch makes the gesture-end
handler propagate the storage error to its caller — the bare
`localStorage.setItem` is wrapped in no `try`/`catch`, refuting the claim
that persistence saves never throw. -/
theorem save_failure_propagates_cex :
    handleTouchEnd [] c8State = .error .quotaExceeded := rfl

/-- C8 amended: persistence save operations call the storage API directly
with no exception handling, so when the underlying write fails the error
propagates out of the gesture-end handlers (and out of the hide handler)
rather than being swallowed. -/
theorem save_failure_propagates (s : AppState)
    (hq : s.store.quotaExceeded = true) :
    (s.isPictureMoveActive = true →
      handleTouchEnd [] s = .error .quotaExceeded ∧
      handlePointerUp s = .error .quotaExceeded ∧
      handleHide s = .error .quotaExceeded) ∧
    (s.isPictureMoveActive = false → s.isCameraMoveActive = true →
      handleTouchEnd [] s = .error .quotaExceeded ∧
      handlePointerUp s = .error .quotaExceeded ∧
      handleHide s = .error .quotaExceeded) := by
  constructor
  · intro hp
    refine ⟨?_, ?_, ?_⟩ <;> cases hc : s.isCameraMoveActive <;>
      simp [handleTouchEnd, handlePointerUp, handleHide, Store.setItem,
        hp, hc, hq]
  · intro hp hc
    refine ⟨?_, ?_, ?_⟩ <;>
      simp [handleTouchEnd, handlePointerUp, handleHide, Store.setItem,
        hp, hc, hq]

/-- Witness for the amended C8 at a concrete quota-exhausted state. -/
theorem save_failure_propagates_witness :
    handleTouchEnd [] c8State = .error .quotaExceeded ∧
    handlePointerUp c8State = .error .quotaExceeded ∧
    handleHide c8State = .error .quotaExceeded :=
  (save_failure_propagates c8State rfl).1 rfl

lemma handlePointerMove_store (p : Point) (s : AppState) :
    (handlePointerMove p s).store = s.store := by
  cases hp : s.isPictureMoveActive <;> cases hc : s.isCameraMoveActive <;>
    cases hd : s.isDragging <;> simp [handlePointerMove, hp, hc, hd]

lemma handleTouchMove_store (dist : Point → Point → ℚ) (ts : List Point)
    (s : AppState) : (handleTouchMove dist ts s).store = s.store := by
  rcases ts with _ | ⟨t0, _ | ⟨t1, _ | ⟨t2, tr⟩⟩⟩ <;>
    cases hp : s.isPictureMoveActive <;> cases hc : s.isCameraMoveActive <;>
      cases hpin : s.isPinching <;> cases hd : s.isDragging <;>
        simp [handleTouchMove, hp, hc, hpin, hd]

lemma applyMove_store (dist : Point → Point → ℚ) (e : MoveEvt)
    (s : AppState) : (applyMove dist e s).store = s.store := by
  cases e with
  | pointer p => exact handlePointerMove_store p s
  | touchFrame ts => exact handleTouchMove_store dist ts s

lemma runMoves_store (dist : Point → Point → ℚ) (evs : List MoveEvt) :
    ∀ s : AppState, (runMoves dist evs s).store = s.store := by
  induction evs with
  | nil => intro s; rfl
  | cons e evs ih =>
      intro s
      rw [show runMoves dist (e :: evs) s
            = runMoves dist evs (applyMove dist e s) from rfl]
      rw [ih (applyMove dist e s), applyMove_store]

/-- C9: a transform is written to local persistence only at interaction
end, never on a move event — any sequence of pointer-move / touch-move
frames leaves the store untouched while the in-memory transform is updated
per frame, and the end handlers (last touch lifted, pointer up) are the
ones that write the finalized transform under its key. -/
theorem transform_persisted_only_at_end (dist : Point → Point → ℚ) :
    (∀ (s : AppState) (evs : List MoveEvt),
      (runMoves dist evs s).store = s.store) ∧
    (∀ s : AppState, s.isPictureMoveActive = true →
      s.store.quotaExceeded = false →
      ∃ s', handleTouchEnd [] s = .ok s' ∧
        s'.store.getItem imageTransformKey
          = some (encodeTransform s.imagePosition)) ∧
    (∀ s : AppState, s.isPictureMoveActive = true →
      s.store.quotaExceeded = false →
      ∃ s', handlePointerUp s = .ok s' ∧
        s'.store.getItem imageTransformKey
          = some (encodeTransform s.imagePosition)) ∧
    (∀ (s : AppState) (q : Point), s.isPictureMoveActive = true →
      s.isDragging = true →
      (handleTouchMove dist [q] s).imagePosition.x
          = s.imagePosition.x + (q.x - s.dragStartPos.x) ∧
      (handleTouchMove dist [q] s).imagePosition.y
          = s.imagePosition.y + (q.y - s.dragStartPos.y)) := by
  refine ⟨fun s evs => runMoves_store dist evs s, ?_, ?_, ?_⟩
  · intro s hp hq
    cases hset : s.store.setItem imageTransformKey (encodeTransform s.imagePosition) with
    | error e =>
        unfold Store.setItem at hset
        rw [hq] at hset
        simp at hset
    | ok st' =>
        refine ⟨{ s with isDragging := false, isPinching := false, store := st' },
          ?_, getItem_setItem_self _ _ _ _ hset⟩
        cases hc : s.isCameraMoveActive <;>
          simp [handleTouchEnd, hp, hc, hset]
  · intro s hp hq
    cases hset : s.store.setItem imageTransformKey (encodeTransform s.imagePosition) with
    | error e =>
        unfold Store.setItem at hset
        rw [hq] at hset
        simp at hset
    | ok st' =>
        refine ⟨{ s with isDragging := false, store := st' },
          ?_, getItem_setItem_self _ _ _ _ hset⟩
        cases hc : s.isCameraMoveActive <;>
          simp [handlePointerUp, hp, hc, hset]
  · intro s q hp hd
    rw [handleTouchMove_singleton]
    simp [handlePointerMove, hp, hd]

/-- Witness for C9: the end handler writes the active transform. -/
theorem transform_persisted_only_at_end_witness :
    ∃ s', handleTouchEnd [] c9State = .ok s' ∧
      s'.store.getItem imageTransformKey
        = some (encodeTransform c9State.imagePosition) :=
  (transform_persisted_only_at_end (fun _ _ => 0)).2.1 c9State rfl rfl

/-- C10: the startup restore installs any stored value that parses to a
truthy object as a transform without validating fields or ranges; in
particular a stored object encoding `scale = 100` is installed verbatim,
so the restored in-memory transform violates the `[0.5, 3.0]` scale bound
that gesture operations maintain. -/
theorem restore_installs_unvalidated :
    (∀ j : Json, j.isTruthyObject = true →
      (loadTransforms (initialAppState
          { entries := [(imageTransformKey, j)], quotaExceeded := false })).imagePosition
        = jsonToTransform j) ∧
    ((loadTransforms (initialAppState c10Store)).imagePosition.scale = 100 ∧
      ¬ (loadTransforms (initialAppState c10Store)).imagePosition.scale ≤ 3) := by
  constructor
  · intro j hj
    rw [loadTransforms_imagePosition]
    rw [show (initialAppState
        { entries := [(imageTransformKey, j)],
          quotaExceeded := false }).store.getItem imageTransformKey
      = some j from by simp [initialAppState, Store.getItem, List.find?_cons]]
    simp [hj]
  · constructor
    · rfl
    · rw [show (loadTransforms (initialAppState c10Store)).imagePosition.scale
          = 100 from rfl]
      norm_num

/-- Witness for C10: the malformed stored object is installed verbatim. -/
theorem restore_installs_unvalidated_witness :
    (loadTransforms (initialAppState c10Store)).imagePosition
      = jsonToTransform badStoredTransform :=
  restore_installs_unvalidated.1 badStoredTransform rfl

end TraceCam
